import Mathlib

/-!
Verification of the taskflow pipeline-orchestration and session-memory core.

The development shallowly embeds the Python sources:
  * string helpers model the Python `str` operations used by the code
    (lower-casing, prefix / substring tests, strip, slicing), executable
    over the underlying character lists;
  * `SessionMemory` with `add_interaction`, `add_task_created`,
    `get_context`, `get_user_patterns` embeds src/utils/memory.py;
  * `detect_input_type` and `detect_and_process` embed
    src/agents/input_processor.py;
  * `process_input` embeds TaskFlowOrchestrator.process_input from
    src/agents/orchestrator.py, with the external collaborators (email
    parsing, voice transcription, the two LLM calls and the task-creation
    client) abstracted as fallible oracles in a `Collab` record, and the
    wall clock abstracted as an explicit timestamp argument.
Exceptions are modelled by `Except String`; a `Except.error` at the outer
level of `process_input` models an exception escaping to the caller.
-/

/-- Python `str.lower`, character by character (ASCII case folding). -/
def lowerStr (s : String) : String := String.mk (s.data.map Char.toLower)

/-- Python `s.startswith(pre)`. -/
def strStartsWith (s pre : String) : Bool := pre.data.isPrefixOf s.data

/-- Membership of `needle` as a contiguous sublist of a character list,
by structural recursion (Python `needle in hay` for strings). -/
def listContainsSub (needle : List Char) : List Char → Bool
  | [] => needle.isEmpty
  | c :: rest => needle.isPrefixOf (c :: rest) || listContainsSub needle rest

/-- Python `needle in hay` for strings. -/
def strContainsSub (hay needle : String) : Bool := listContainsSub needle.data hay.data

/-- ASCII whitespace recognised by the model of Python `str.strip`. -/
def isSpaceChar (c : Char) : Bool := c = ' ' || c = '\t' || c = '\n' || c = '\r'

/-- Python `s.strip()`: remove whitespace from both ends. -/
def stripStr (s : String) : String :=
  String.mk (List.rdropWhile isSpaceChar (s.data.dropWhile isSpaceChar))

/-- Python `s[:n]` for a string and a nonnegative `n`. -/
def takeChars (s : String) (n : Nat) : String := String.mk (s.data.take n)

/-- Python `sep.join(parts)`. -/
def joinSep (sep : String) : List String → String
  | [] => ""
  | [x] => x
  | x :: y :: xs => x ++ sep ++ joinSep sep (y :: xs)

/-- Python list slice `xs[-k:]` for a nonnegative `k`.  For `k = 0` the
index `-0` is `0`, so the slice is the WHOLE list; for `k ≥ 1` it is the
last `min k (length xs)` elements. -/
def pySliceLast (k : Nat) (xs : List α) : List α :=
  if k = 0 then xs else xs.rtake k

/-! ## src/utils/memory.py -/

/-- `Interaction` dataclass (src/utils/memory.py). -/
structure Interaction where
  type : String
  content : String
  timestamp : String
  channel : String
  task_created : Bool := false
deriving DecidableEq

/-- `TaskMemory` dataclass (src/utils/memory.py). -/
structure TaskMemory where
  task_id : Int
  title : String
  source : String
  created_at : String
  priority : Int
  labels : List String
deriving DecidableEq

/-- `SessionMemory` state (src/utils/memory.py); `ttl` is accepted but
never used by any code path modelled here, exactly as in the source. -/
structure SessionMemory where
  interactions : List Interaction := []
  created_tasks : List TaskMemory := []
  ttl : Nat := 3600
  max_items : Nat := 100
deriving DecidableEq

/-- `SessionMemory.add_interaction`; `ts` models `datetime.utcnow().isoformat()`. -/
def SessionMemory.add_interaction (m : SessionMemory)
    (type_ content channel ts : String) : SessionMemory :=
  let interaction : Interaction :=
    { type := type_, content := content, timestamp := ts, channel := channel }
  let l := m.interactions ++ [interaction]
  { m with interactions := if l.length > m.max_items then pySliceLast m.max_items l else l }

/-- `SessionMemory.add_task_created`; `ts` models `datetime.utcnow().isoformat()`. -/
def SessionMemory.add_task_created (m : SessionMemory) (task_id : Int)
    (title source : String) (priority : Int) (labels : List String)
    (ts : String) : SessionMemory :=
  let task : TaskMemory :=
    { task_id := task_id, title := title, source := source, created_at := ts,
      priority := priority, labels := labels }
  let l := m.created_tasks ++ [task]
  { m with created_tasks := if l.length > m.max_items then pySliceLast m.max_items l else l }

/-- One line of the `get_context` digest. -/
def taskLine (t : TaskMemory) : String :=
  "- " ++ t.title ++ " (Priority: " ++ toString t.priority ++ ", Labels: "
    ++ joinSep ", " t.labels ++ ")\n"

/-- `SessionMemory.get_context`. -/
def SessionMemory.get_context (m : SessionMemory) (limit : Nat) : String :=
  let recent_tasks := pySliceLast limit m.created_tasks
  recent_tasks.foldl (fun context t => context ++ taskLine t) "Recent tasks created:\n"

/-- The dictionary returned by a non-empty `get_user_patterns` call.
Python floats are modelled by exact rationals. -/
structure UserPatterns where
  average_priority : ℚ
  common_labels : List String
  preferred_source : Option String
  total_tasks : Nat
deriving DecidableEq

/-- The label set accumulated by `all_labels.update(task.labels)`; Python
exposes it as `list(all_labels)` whose order is unspecified, modelled as
the deduplicated concatenation. -/
def collectLabels (ts : List TaskMemory) : List String :=
  (ts.foldl (fun acc t => acc ++ t.labels) []).dedup

/-- One step of `sources[task.source] = sources.get(task.source, 0) + 1`
on an insertion-ordered dictionary, modelled as an association list. -/
def bumpSource (acc : List (String × Nat)) (s : String) : List (String × Nat) :=
  if (acc.map Prod.fst).contains s then
    acc.map (fun p => if p.1 = s then (p.1, p.2 + 1) else p)
  else acc ++ [(s, 1)]

/-- The `sources` dictionary built by `get_user_patterns`. -/
def sourceCounts (ts : List TaskMemory) : List (String × Nat) :=
  ts.foldl (fun acc t => bumpSource acc t.source) []

/-- Python `max(sources, key=sources.get)`: the first key, in insertion
order, whose count is maximal (`max` replaces only on strictly greater). -/
def pyMaxByCount : List (String × Nat) → Option String
  | [] => none
  | p :: rest => some ((rest.foldl (fun best q => if q.2 > best.2 then q else best) p).1)

/-- Invariant tying the association list built by `bumpSource` to the
occurrence counts of the already-processed source values: keys are
distinct, each entry stores the occurrence count of its key, and the keys
are exactly the values seen so far. -/
def SourcesInv (processed : List String) (acc : List (String × Nat)) : Prop :=
  (acc.map Prod.fst).Nodup
    ∧ (∀ q ∈ acc, q.2 = processed.count q.1)
    ∧ (∀ s : String, s ∈ processed ↔ s ∈ acc.map Prod.fst)

/-- `SessionMemory.get_user_patterns`; the empty Python dict returned on an
empty store is modelled as `none`. -/
def SessionMemory.get_user_patterns (m : SessionMemory) : Option UserPatterns :=
  if m.created_tasks = [] then none
  else some
    { average_priority :=
        ((m.created_tasks.map (fun t => t.priority)).sum : ℚ) / (m.created_tasks.length : ℚ),
      common_labels := collectLabels m.created_tasks,
      preferred_source := pyMaxByCount (sourceCounts m.created_tasks),
      total_tasks := m.created_tasks.length }

/-! ## src/agents/input_processor.py -/

/-- `InputProcessorAgent.detect_input_type`. -/
def detect_input_type (text : String) : String :=
  let text_lower := lowerStr text
  let email_indicators : List Bool :=
    [ strStartsWith text_lower "from:",
      strContainsSub text_lower "to:",
      strContainsSub text_lower "subject:" ]
  if email_indicators.any id then "email"
  else
    let voice_indicators : List Bool :=
      [ strContainsSub text_lower "[voice]",
        strContainsSub text_lower "audio:",
        strContainsSub text_lower ".wav" || strContainsSub text_lower ".mp3" ]
    if voice_indicators.any id then "voice"
    else "text"

/-- The task dictionary exchanged with the LLM collaborators; every field
is optional because the collaborators return plain dictionaries read back
with `.get`. -/
structure RawTask where
  title : Option String := none
  description : Option String := none
  priority : Option Int := none
  due_date : Option String := none
  labels : Option (List String) := none
deriving DecidableEq

/-- The external collaborators of the core, as fallible oracles:
`gemini_key` models the `GEMINI_API_KEY` environment variable,
`vikunja_ok` the outcome of the Vikunja connection check,
`email_process` the email parse + actionable-text extraction,
`voice_process` the transcription, `gemini_extract` and `gemini_enrich`
the two LLM calls, and `vikunja_create` the task-creation client, whose
result is `none` for a falsy value and otherwise carries the optional
`"id"` entry of the returned dictionary. -/
structure Collab where
  gemini_key : Option String
  vikunja_ok : Bool
  email_process : String → Except String String
  voice_process : String → Except String String
  gemini_extract : String → Except String RawTask
  gemini_enrich : RawTask → String → Except String RawTask
  vikunja_create : RawTask → String → Except String (Option (Option Int))

/-- `InputProcessorAgent.process_text`. -/
def process_text (text : String) : String × String := (stripStr text, "text")

/-- `InputProcessorAgent.process_email`. -/
def process_email (c : Collab) (email_text : String) : Except String (String × String) :=
  (c.email_process email_text).map (fun actionable_text => (actionable_text, "email"))

/-- `InputProcessorAgent.process_voice`. -/
def process_voice (c : Collab) (audio_path : String) : Except String (String × String) :=
  (c.voice_process audio_path).map (fun transcribed => (transcribed, "voice"))

/-- `InputProcessorAgent.detect_and_process`.  Inputs are modelled as the
string form the source obtains with `str(input_data)`. -/
def detect_and_process (c : Collab) (input_data : String) (input_type : String) :
    Except String (String × String) :=
  let detected_type := detect_input_type input_data
  let detected_type :=
    if input_type ≠ "text" ∧ (input_type = "email" ∨ input_type = "voice") then input_type
    else detected_type
  if detected_type = "email" then process_email c input_data
  else if detected_type = "voice" then process_voice c input_data
  else Except.ok (process_text input_data)

/-! ## src/agents/parser_agent.py, enricher_agent.py, vikunja_agent.py -/

/-- `ParserAgent.extract_task_structure`: the LLM call followed by the
`setdefault` calls that fill the missing fields. -/
def extract_task_structure (c : Collab) (text : String) : Except String RawTask :=
  (c.gemini_extract text).map (fun task =>
    { title := some (task.title.getD (takeChars text 50)),
      description := some (task.description.getD text),
      priority := some (task.priority.getD 1),
      due_date := task.due_date,
      labels := some (task.labels.getD []) })

/-- Rendering of the patterns dictionary inside the enrichment context
string (Python interpolates `str(patterns)`; the exact text is opaque to
every claim, only the data flow matters). -/
def patternsStr : Option UserPatterns → String
  | none => "\x7b\x7d"
  | some p =>
      "\x7baverage_priority: " ++ toString p.average_priority
        ++ ", common_labels: " ++ joinSep ", " p.common_labels
        ++ ", preferred_source: " ++ p.preferred_source.getD "None"
        ++ ", total_tasks: " ++ toString p.total_tasks ++ "\x7d"

/-- `EnricherAgent.enrich_task`: reads the context and the patterns from
the session store, then calls the LLM oracle. -/
def enrich_task (c : Collab) (memory : SessionMemory) (task : RawTask) :
    Except String RawTask :=
  let context := memory.get_context 5
  let patterns := memory.get_user_patterns
  let context_str := context ++ "\nUser patterns: " ++ patternsStr patterns
  c.gemini_enrich task context_str

/-- `VikunjaBAgent.create_task`: logs, delegates, and re-raises on error. -/
def create_task (c : Collab) (task : RawTask) (source_type : String) :
    Except String (Option (Option Int)) :=
  c.vikunja_create task source_type

/-! ## src/agents/orchestrator.py -/

/-- Orchestrator state: the owned session store and the `_initialized`
flag. -/
structure OrchState where
  memory : SessionMemory
  inited : Bool
deriving DecidableEq

/-- `TaskFlowOrchestrator.initialize`: the Vikunja check only logs a
warning when it fails; a missing `GEMINI_API_KEY` raises (and the
`except` clause re-raises), leaving the flag unset. -/
def orchInit (c : Collab) (st : OrchState) : Except String OrchState :=
  match c.gemini_key with
  | none => Except.error "GEMINI_API_KEY not set"
  | some _ => Except.ok { st with inited := true }

/-- The result envelope of `process_input`: a `success` dictionary or the
`success: False` error dictionary. -/
inductive Envelope where
  | success (task_id : Option Int) (title : Option String) (source : String)
      (priority : Option Int) (labels : List String)
  | failure (error : String) (source : String)
deriving DecidableEq

/-- `created_task.get("id") if created_task else -1`. -/
def taskIdOf : Option (Option Int) → Option Int
  | none => some (-1)
  | some oid => oid

/-- `TaskFlowOrchestrator.process_input`.  The lazy first-call set-up runs
BEFORE the `try` block, so its failure is an `Except.error` of the whole
function (an exception reaching the caller); every failure inside the
`try` block becomes a `success: False` envelope carrying the original
`input_type` hint. -/
def process_input (c : Collab) (st : OrchState) (input_data : String)
    (input_type : String) (ts : String) : Except String (Envelope × OrchState) :=
  match (if st.inited then Except.ok st else orchInit c st) with
  | Except.error e => Except.error e
  | Except.ok st =>
    match detect_and_process c input_data input_type with
    | Except.error e => Except.ok (Envelope.failure e input_type, st)
    | Except.ok (normalized_text, detected_type) =>
      let st : OrchState :=
        { st with memory := st.memory.add_interaction input_type normalized_text detected_type ts }
      match extract_task_structure c normalized_text with
      | Except.error e => Except.ok (Envelope.failure e input_type, st)
      | Except.ok task =>
        match enrich_task c st.memory task with
        | Except.error e => Except.ok (Envelope.failure e input_type, st)
        | Except.ok enriched_task =>
          match create_task c enriched_task detected_type with
          | Except.error e => Except.ok (Envelope.failure e input_type, st)
          | Except.ok created_task =>
            Except.ok
              ( Envelope.success (taskIdOf created_task) enriched_task.title detected_type
                  enriched_task.priority (enriched_task.labels.getD []),
                st )

/-- Boolean equality test on `Except`, for concrete evaluation. -/
def exceptBeq [DecidableEq ε] [DecidableEq α] : Except ε α → Except ε α → Bool
  | Except.error a, Except.error b => a = b
  | Except.ok a, Except.ok b => a = b
  | _, _ => false

instance exceptDecidableEq [DecidableEq ε] [DecidableEq α] : DecidableEq (Except ε α) :=
  fun x y =>
    decidable_of_iff (exceptBeq x y = true) (by cases x <;> cases y <;> simp [exceptBeq])

/-! ## Iterated store mutation and concrete fixtures -/

/-- The argument tuple of one `add_interaction` call. -/
structure AddArgs where
  type_ : String
  content : String
  channel : String
  ts : String
deriving DecidableEq

/-- The record a single `add_interaction` call appends. -/
def mkInteractionOf (a : AddArgs) : Interaction :=
  { type := a.type_, content := a.content, timestamp := a.ts, channel := a.channel }

/-- A sequence of `add_interaction` calls. -/
def addInteractions (m : SessionMemory) (items : List AddArgs) : SessionMemory :=
  items.foldl (fun mem a => mem.add_interaction a.type_ a.content a.channel a.ts) m

/-- Collaborator fixture: every stage succeeds; the extraction oracle
returns title "Fix login bug", priority 3 and label "bug", enrichment is
the identity, and creation returns a task dictionary with id 42. -/
def cDemo : Collab :=
  { gemini_key := some "key",
    vikunja_ok := true,
    email_process := fun _ => Except.ok "X. body text",
    voice_process := fun _ => Except.ok "transcribed text",
    gemini_extract := fun _ =>
      Except.ok { title := some "Fix login bug", priority := some 3, labels := some ["bug"] },
    gemini_enrich := fun task _ => Except.ok task,
    vikunja_create := fun _ _ => Except.ok (some (some 42)) }

/-- Collaborator fixture where only the task-creation stage fails. -/
def cCreateFail : Collab :=
  { cDemo with vikunja_create := fun _ _ => Except.error "Vikunja error: boom" }

/-- Collaborator fixture with no API key configured. -/
def cNoKey : Collab := { cDemo with gemini_key := none }

/-- Orchestrator state after a successful first call: flag set, store empty. -/
def stReady : OrchState := { memory := {}, inited := true }

/-- Orchestrator state before the first call. -/
def stFresh : OrchState := { memory := {}, inited := false }

/-- A store with `max_items = 0` and otherwise default configuration. -/
def memZero : SessionMemory := { max_items := 0 }

/-- The task the extraction stage of `cDemo` produces for the input
"Ship the report" after the `setdefault` calls. -/
def taskA : RawTask :=
  { title := some "Fix login bug", description := some "Ship the report",
    priority := some 3, due_date := none, labels := some ["bug"] }

/-- Sample `add_interaction` argument tuples. -/
def argA : AddArgs := { type_ := "text", content := "one", channel := "text", ts := "t1" }

def argB : AddArgs := { type_ := "text", content := "two", channel := "text", ts := "t2" }

/-- A store holding three tasks with priorities 1, 2, 3, sources
text, email, text, and labels bug / ui / bug. -/
def memP : SessionMemory :=
  { created_tasks :=
      [ { task_id := 1, title := "a", source := "text", created_at := "s1",
          priority := 1, labels := ["bug"] },
        { task_id := 2, title := "b", source := "email", created_at := "s2",
          priority := 2, labels := ["ui"] },
        { task_id := 3, title := "c", source := "text", created_at := "s3",
          priority := 3, labels := ["bug"] } ] }

/-- A store holding no tasks. -/
def memE : SessionMemory := {}

/-! ## Helper lemmas -/

/-- The classifier only ever produces one of the three channel names. -/
theorem detect_input_type_cases (s : String) :
    detect_input_type s = "email" ∨ detect_input_type s = "voice"
      ∨ detect_input_type s = "text" := by
  simp only [detect_input_type]
  split_ifs <;> simp

theorem process_email_channel (c : Collab) (x n ch : String)
    (h : process_email c x = Except.ok (n, ch)) : ch = "email" := by
  cases hx : c.email_process x <;>
    simp [process_email, hx, Except.map] at h
  exact h.2.symm

theorem process_voice_channel (c : Collab) (x n ch : String)
    (h : process_voice c x = Except.ok (n, ch)) : ch = "voice" := by
  cases hx : c.voice_process x <;>
    simp [process_voice, hx, Except.map] at h
  exact h.2.symm

/-! ## Claim C1 -/

/-- Claim C1: classification works on the lower-cased string form and
applies the rules in priority order with first match winning: `email` if
the content starts with "from:" or contains "to:" or "subject:", else
`voice` if it contains "[voice]", "audio:", ".wav" or ".mp3", else the
default `text`; the result is always one of the three channels, never an
error. -/
theorem detect_input_type_classifies (s : String) :
    detect_input_type s =
      (if strStartsWith (lowerStr s) "from:" = true
          ∨ strContainsSub (lowerStr s) "to:" = true
          ∨ strContainsSub (lowerStr s) "subject:" = true then "email"
       else if strContainsSub (lowerStr s) "[voice]" = true
          ∨ strContainsSub (lowerStr s) "audio:" = true
          ∨ strContainsSub (lowerStr s) ".wav" = true
          ∨ strContainsSub (lowerStr s) ".mp3" = true then "voice"
       else "text")
    ∧ (detect_input_type s = "email" ∨ detect_input_type s = "voice"
        ∨ detect_input_type s = "text") := by
  refine ⟨?_, detect_input_type_cases s⟩
  unfold detect_input_type
  simp only [List.any_cons, List.any_nil, id_eq, Bool.or_false, Bool.or_eq_true]

/-! ## Claim C2 -/

/-- Claim C2: a caller-supplied channel hint overrides the detected
channel exactly when the hint is "email" or "voice"; any other hint
(including "text") leaves the detected channel in force, and on success
the returned channel is the resolved one. -/
theorem channel_hint_override (c : Collab) (input hint : String) :
    (detect_and_process c input hint
      = (if hint = "email" ∨ hint = "voice" then
           (if hint = "email" then process_email c input else process_voice c input)
         else if detect_input_type input = "email" then process_email c input
         else if detect_input_type input = "voice" then process_voice c input
         else Except.ok (process_text input)))
    ∧ (∀ norm ch, detect_and_process c input hint = Except.ok (norm, ch) →
        ch = (if hint = "email" ∨ hint = "voice" then hint
              else detect_input_type input)) := by
  have hmain : detect_and_process c input hint
      = (if hint = "email" ∨ hint = "voice" then
           (if hint = "email" then process_email c input else process_voice c input)
         else if detect_input_type input = "email" then process_email c input
         else if detect_input_type input = "voice" then process_voice c input
         else Except.ok (process_text input)) := by
    by_cases h1 : hint = "email"
    · subst h1
      simp [detect_and_process]
    · by_cases h2 : hint = "voice"
      · subst h2
        simp [detect_and_process]
      · have hor : ¬ (hint = "email" ∨ hint = "voice") := by tauto
        have hand : ¬ (hint ≠ "text" ∧ (hint = "email" ∨ hint = "voice")) := by tauto
        simp only [detect_and_process, if_neg hand, if_neg hor]
  refine ⟨hmain, ?_⟩
  intro norm ch h
  rw [hmain] at h
  by_cases hor : hint = "email" ∨ hint = "voice"
  · rw [if_pos hor] at h
    rw [if_pos hor]
    by_cases h1 : hint = "email"
    · rw [if_pos h1] at h
      rw [process_email_channel c input norm ch h, h1]
    · rw [if_neg h1] at h
      rcases hor with h1x | h2
      · exact absurd h1x h1
      · rw [process_voice_channel c input norm ch h, h2]
  · rw [if_neg hor] at h
    rw [if_neg hor]
    rcases detect_input_type_cases input with hd | hd | hd
    · rw [hd] at h
      simp only [if_pos rfl] at h
      rw [process_email_channel c input norm ch h, hd]
    · rw [hd] at h
      have : ("voice" : String) ≠ "email" := by decide
      rw [if_neg this, if_pos rfl] at h
      rw [process_voice_channel c input norm ch h, hd]
    · rw [hd] at h
      have h1 : ("text" : String) ≠ "email" := by decide
      have h2 : ("text" : String) ≠ "voice" := by decide
      rw [if_neg h1, if_neg h2] at h
      simp [process_text] at h
      rw [hd]
      exact h.2.symm

/-- Claim C2 witness: a "voice" hint on plain text forces the voice channel. -/
theorem channel_hint_override_witness :
    ("voice" : String)
      = (if ("voice" : String) = "email" ∨ ("voice" : String) = "voice" then "voice"
         else detect_input_type "hello") :=
  (channel_hint_override cDemo "hello" "voice").2 "transcribed text" "voice" (by decide)

/-! ## Claim C10 -/

theorem foldl_taskLine_init (l : List TaskMemory) :
    ∀ init : String,
      l.foldl (fun context t => context ++ taskLine t) init
        = init ++ l.foldl (fun context t => context ++ taskLine t) "" := by
  induction l with
  | nil => intro init; simp
  | cons t rest ih =>
      intro init
      simp only [List.foldl_cons]
      rw [ih (init ++ taskLine t), ih ("" ++ taskLine t)]
      simp [String.append_assoc]

/-- Claim C10: `get_context` with limit 0 renders the digest of ALL stored
task entries (the slice `created_tasks[-0:]` is the whole list), and for
every limit the result begins with the header line, even on an empty
store. -/
theorem get_context_zero_and_header :
    (∀ m : SessionMemory,
        m.get_context 0
          = m.created_tasks.foldl (fun context t => context ++ taskLine t)
              "Recent tasks created:\n")
    ∧ (∀ (m : SessionMemory) (limit : Nat), ∃ rest : String,
        m.get_context limit = "Recent tasks created:\n" ++ rest) := by
  constructor
  · intro m
    simp [SessionMemory.get_context, pySliceLast]
  · intro m limit
    refine ⟨(pySliceLast limit m.created_tasks).foldl
      (fun context t => context ++ taskLine t) "", ?_⟩
    simp only [SessionMemory.get_context]
    exact foldl_taskLine_init _ _

/-! ## rtake helpers for the trimming proofs -/

theorem rtakeLength (l : List α) (n : Nat) : (l.rtake n).length = min n l.length := by
  simp only [List.rtake, List.length_drop]
  omega

theorem rtakeAll {l : List α} {n : Nat} (h : l.length ≤ n) : l.rtake n = l := by
  have h0 : l.length - n = 0 := by omega
  simp [List.rtake, h0]

theorem rtakeRtakePred (l : List α) (m : Nat) (h : m + 1 ≤ l.length) :
    (l.rtake (m + 1)).rtake m = l.rtake m := by
  simp only [List.rtake, List.length_drop, List.drop_drop]
  congr 1
  omega

theorem trimSnoc (cap : Nat) (hcap : 1 ≤ cap) (hist : List α) (a : α) :
    (if (hist.rtake cap ++ [a]).length > cap then pySliceLast cap (hist.rtake cap ++ [a])
     else hist.rtake cap ++ [a]) = (hist ++ [a]).rtake cap := by
  obtain ⟨m, rfl⟩ : ∃ m, cap = m + 1 := ⟨cap - 1, by omega⟩
  by_cases h : hist.length ≤ m
  · have h1 : hist.rtake (m + 1) = hist := rtakeAll (by omega)
    rw [h1]
    have h2 : ¬ ((hist ++ [a]).length > m + 1) := by simp; omega
    rw [if_neg h2, rtakeAll (by simp; omega)]
  · push_neg at h
    have hl : (hist.rtake (m + 1)).length = m + 1 := by rw [rtakeLength]; omega
    have hc : (hist.rtake (m + 1) ++ [a]).length > m + 1 := by simp [hl]
    rw [if_pos hc]
    have hne : ¬ (m + 1 = 0) := by omega
    simp only [pySliceLast, if_neg hne]
    rw [List.rtake_concat_succ, List.rtake_concat_succ, rtakeRtakePred _ _ (by omega)]

/-! ## Claim C3 -/

theorem add_interaction_created_tasks (m : SessionMemory)
    (type_ content channel ts : String) :
    (m.add_interaction type_ content channel ts).created_tasks = m.created_tasks := rfl

theorem add_interaction_mem (m : SessionMemory) (type_ content channel ts : String)
    (h : 1 ≤ m.max_items) :
    ({ type := type_, content := content, timestamp := ts, channel := channel } : Interaction)
      ∈ (m.add_interaction type_ content channel ts).interactions := by
  simp only [SessionMemory.add_interaction]
  by_cases hc : (m.interactions
      ++ [({ type := type_, content := content, timestamp := ts, channel := channel } : Interaction)]).length
        > m.max_items
  · rw [if_pos hc]
    obtain ⟨k, hk⟩ : ∃ k, m.max_items = k + 1 := ⟨m.max_items - 1, by omega⟩
    have hne : ¬ (m.max_items = 0) := by omega
    simp only [pySliceLast, if_neg hne, hk, List.rtake_concat_succ]
    exact List.mem_append_right _ (List.mem_singleton.mpr rfl)
  · rw [if_neg hc]
    exact List.mem_append_right _ (List.mem_singleton.mpr rfl)

theorem addInteractions_rtake (cap : Nat) (hcap : 1 ≤ cap) (cts : List TaskMemory)
    (t : Nat) :
    ∀ (items : List AddArgs) (hist : List Interaction),
      (addInteractions ⟨hist.rtake cap, cts, t, cap⟩ items).interactions
        = (hist ++ items.map mkInteractionOf).rtake cap := by
  intro items
  induction items with
  | nil => intro hist; simp [addInteractions]
  | cons a rest ih =>
      intro hist
      have step :
          SessionMemory.add_interaction ⟨hist.rtake cap, cts, t, cap⟩
              a.type_ a.content a.channel a.ts
            = ⟨(hist ++ [mkInteractionOf a]).rtake cap, cts, t, cap⟩ := by
        simp only [SessionMemory.add_interaction, mkInteractionOf]
        congr 1
        exact trimSnoc cap hcap hist (mkInteractionOf a)
      simp only [addInteractions, List.foldl_cons]
      rw [step]
      have h2 := ih (hist ++ [mkInteractionOf a])
      simp only [addInteractions] at h2
      rw [h2, List.map_cons,
        show hist ++ (mkInteractionOf a :: rest.map mkInteractionOf)
            = (hist ++ [mkInteractionOf a]) ++ rest.map mkInteractionOf by simp]

/-- Claim C3 counterexample: with `max_items = 0` the Python slice `[-0:]`
keeps everything, so a single `add_interaction` leaves 1 > 0 items and the
claimed bound fails. -/
theorem session_capacity_zero_cex :
    ¬ ((memZero.add_interaction "text" "hi" "text" "t0").interactions.length
        ≤ memZero.max_items) := by decide

/-- Claim C3 (amended: the bound and the trimming behaviour require
`max_items ≥ 1`; with `max_items = 0` the slice `[-0:]` never trims).
After every `add_interaction` and `add_task_created` call the collection
is bounded by `max_items` and is a suffix of the old collection with the
new record appended (insertion order preserved, oldest entries dropped
first), and `max_items + k` calls (k > 0) from an empty store leave
exactly the `max_items` most recent records in arrival order. -/
theorem session_capacity_invariant :
    (∀ (m : SessionMemory) (type_ content channel ts : String), 1 ≤ m.max_items →
        (m.add_interaction type_ content channel ts).interactions.length ≤ m.max_items
          ∧ (m.add_interaction type_ content channel ts).interactions
              <:+ m.interactions
                  ++ [{ type := type_, content := content, timestamp := ts,
                        channel := channel }])
    ∧ (∀ (m : SessionMemory) (task_id : Int) (title source : String) (priority : Int)
          (labels : List String) (ts : String), 1 ≤ m.max_items →
        (m.add_task_created task_id title source priority labels ts).created_tasks.length
            ≤ m.max_items
          ∧ (m.add_task_created task_id title source priority labels ts).created_tasks
              <:+ m.created_tasks
                  ++ [{ task_id := task_id, title := title, source := source,
                        created_at := ts, priority := priority, labels := labels }])
    ∧ (∀ (cap t : Nat) (cts : List TaskMemory) (items : List AddArgs),
        1 ≤ cap → cap < items.length →
          (addInteractions ⟨[], cts, t, cap⟩ items).interactions
              = (items.map mkInteractionOf).rtake cap
            ∧ (addInteractions ⟨[], cts, t, cap⟩ items).interactions.length = cap) := by
  refine ⟨?_, ?_, ?_⟩
  · intro m type_ content channel ts h
    simp only [SessionMemory.add_interaction]
    by_cases hc : (m.interactions
        ++ [({ type := type_, content := content, timestamp := ts,
               channel := channel } : Interaction)]).length > m.max_items
    · rw [if_pos hc]
      have hne : ¬ (m.max_items = 0) := by omega
      simp only [pySliceLast, if_neg hne]
      constructor
      · rw [rtakeLength]; omega
      · simp only [List.rtake]; exact List.drop_suffix _ _
    · rw [if_neg hc]
      exact ⟨by omega, List.suffix_refl _⟩
  · intro m task_id title source priority labels ts h
    simp only [SessionMemory.add_task_created]
    by_cases hc : (m.created_tasks
        ++ [({ task_id := task_id, title := title, source := source, created_at := ts,
               priority := priority, labels := labels } : TaskMemory)]).length > m.max_items
    · rw [if_pos hc]
      have hne : ¬ (m.max_items = 0) := by omega
      simp only [pySliceLast, if_neg hne]
      constructor
      · rw [rtakeLength]; omega
      · simp only [List.rtake]; exact List.drop_suffix _ _
    · rw [if_neg hc]
      exact ⟨by omega, List.suffix_refl _⟩
  · intro cap t cts items hcap hlen
    have h0 : ([] : List Interaction) = ([] : List Interaction).rtake cap := by
      simp [List.rtake]
    have h1 := addInteractions_rtake cap hcap cts t items []
    rw [← h0] at h1
    simp only [List.nil_append] at h1
    refine ⟨h1, ?_⟩
    rw [h1, rtakeLength, List.length_map]
    omega

/-- Claim C3 witness: capacity 1, two calls, only the newest record kept. -/
theorem session_capacity_invariant_witness :
    (1 ≤ (1 : Nat)) ∧ ((1 : Nat) < ([argA, argB] : List AddArgs).length)
      ∧ ((addInteractions ⟨[], [], 3600, 1⟩ [argA, argB]).interactions
            = ([argA, argB].map mkInteractionOf).rtake 1
          ∧ (addInteractions ⟨[], [], 3600, 1⟩ [argA, argB]).interactions.length = 1) :=
  ⟨by decide, by decide,
    session_capacity_invariant.2.2 1 3600 [] [argA, argB] (by decide) (by decide)⟩

/-! ## Orchestrator helper lemmas -/

theorem add_interaction_no_trim (m : SessionMemory) (type_ content channel ts : String)
    (h : m.interactions.length < m.max_items) :
    (m.add_interaction type_ content channel ts).interactions
      = m.interactions
          ++ [{ type := type_, content := content, timestamp := ts, channel := channel }] := by
  simp only [SessionMemory.add_interaction]
  rw [if_neg]
  simp only [List.length_append, List.length_singleton]
  omega

theorem init_skip (c : Collab) (st : OrchState) (hin : st.inited = true) :
    (if st.inited then Except.ok st else orchInit c st) = Except.ok st := by
  rw [hin]
  rfl

theorem process_input_returns (c : Collab) (st : OrchState) (input hint ts : String)
    (st1 : OrchState)
    (h : (if st.inited then Except.ok st else orchInit c st) = Except.ok st1) :
    ∃ env st2, process_input c st input hint ts = Except.ok (env, st2) := by
  simp only [process_input, h]
  split
  · exact ⟨_, _, rfl⟩
  · split
    · exact ⟨_, _, rfl⟩
    · split
      · exact ⟨_, _, rfl⟩
      · split
        · exact ⟨_, _, rfl⟩
        · exact ⟨_, _, rfl⟩

/-! ## Claim C4 -/

/-- Claim C4: when the pipeline body fails at any stage — classification /
normalization, extraction, enrichment, or task creation — the caller gets
the envelope with success False, the error message and the ORIGINAL hint
as source; the created-task collection is untouched, and the interaction
recorded after a successful step 2 stays in the store. -/
theorem failure_envelope_preserves_store (c : Collab) (st : OrchState)
    (input hint ts : String) (hin : st.inited = true) :
    (∀ e, detect_and_process c input hint = Except.error e →
        process_input c st input hint ts = Except.ok (Envelope.failure e hint, st))
    ∧ (∀ norm det e,
        detect_and_process c input hint = Except.ok (norm, det) →
        (extract_task_structure c norm = Except.error e
          ∨ (∃ task, extract_task_structure c norm = Except.ok task
              ∧ enrich_task c (st.memory.add_interaction hint norm det ts) task
                  = Except.error e)
          ∨ (∃ task enriched, extract_task_structure c norm = Except.ok task
              ∧ enrich_task c (st.memory.add_interaction hint norm det ts) task
                  = Except.ok enriched
              ∧ create_task c enriched det = Except.error e)) →
        (process_input c st input hint ts
            = Except.ok (Envelope.failure e hint,
                { st with memory := st.memory.add_interaction hint norm det ts })
          ∧ (st.memory.add_interaction hint norm det ts).created_tasks
              = st.memory.created_tasks
          ∧ (1 ≤ st.memory.max_items →
              ({ type := hint, content := norm, timestamp := ts, channel := det } : Interaction)
                ∈ (st.memory.add_interaction hint norm det ts).interactions))) := by
  constructor
  · intro e hd
    simp only [process_input, init_skip c st hin, hd]
  · intro norm det e hd hdisj
    refine ⟨?_, rfl, add_interaction_mem st.memory hint norm det ts⟩
    rcases hdisj with he | ⟨task, he, hen⟩ | ⟨task, enriched, he, hen, hc⟩
    · simp only [process_input, init_skip c st hin, hd, he]
    · simp only [process_input, init_skip c st hin, hd, he, hen]
    · simp only [process_input, init_skip c st hin, hd, he, hen, hc]

/-- Claim C4 witness: the task-creation stage fails, the envelope reports
the error with the original hint, the interaction stays, no task memory. -/
theorem failure_envelope_preserves_store_witness :
    (stReady.inited = true)
    ∧ (detect_and_process cCreateFail "Ship the report" "text"
        = Except.ok ("Ship the report", "text"))
    ∧ (process_input cCreateFail stReady "Ship the report" "text" "t0"
          = Except.ok (Envelope.failure "Vikunja error: boom" "text",
              { stReady with
                  memory := stReady.memory.add_interaction "text" "Ship the report" "text" "t0" })
        ∧ (stReady.memory.add_interaction "text" "Ship the report" "text" "t0").created_tasks
            = stReady.memory.created_tasks
        ∧ (1 ≤ stReady.memory.max_items →
            ({ type := "text", content := "Ship the report", timestamp := "t0",
               channel := "text" } : Interaction)
              ∈ (stReady.memory.add_interaction "text" "Ship the report" "text" "t0").interactions)) :=
  ⟨rfl, by decide,
    (failure_envelope_preserves_store cCreateFail stReady "Ship the report" "text" "t0" rfl).2
      "Ship the report" "text" "Vikunja error: boom" (by decide)
      (Or.inr (Or.inr ⟨taskA, taskA, by decide, by decide, by decide⟩))⟩

/-! ## Claim C5 -/

/-- Claim C5 evaluation at the failing input: every stage succeeds (the
creation client returns a task with id 42), yet the returned state still
has an EMPTY created-task collection — `process_input` never calls
`add_task_created`, so no TaskMemory record is created even on success. -/
theorem task_memory_not_recorded :
    process_input cDemo stReady "Fix the login bug by Friday - critical" "text" "t0"
      = Except.ok
          ( Envelope.success (some 42) (some "Fix login bug") "text" (some 3) ["bug"],
            { memory :=
                { interactions :=
                    [ { type := "text",
                        content := "Fix the login bug by Friday - critical",
                        timestamp := "t0", channel := "text" } ],
                  created_tasks := [], ttl := 3600, max_items := 100 },
              inited := true } ) := by decide

/-! ## Claim C6 -/

/-- Claim C6 counterexample: the lazy first-call set-up runs before the
`try` block, so its failure (no API key) escapes `process_input` as an
exception instead of an error envelope. -/
theorem init_error_propagates_cex :
    process_input cNoKey stFresh "hello" "text" "t0"
      = Except.error "GEMINI_API_KEY not set" := by decide

/-- Claim C6 (amended: the well-formed envelope is guaranteed only when
the orchestrator is already marked ready or the lazy first-call set-up
succeeds; an exception raised by that set-up — e.g. a missing API key —
propagates to the caller because it runs before the `try` block). -/
theorem envelope_total_after_init (c : Collab) (st : OrchState)
    (input hint ts : String) (h : st.inited = true ∨ c.gemini_key ≠ none) :
    ∃ env st2, process_input c st input hint ts = Except.ok (env, st2) := by
  have hinit : ∃ st1, (if st.inited then Except.ok st else orchInit c st) = Except.ok st1 := by
    rcases h with h | h
    · exact ⟨st, init_skip c st h⟩
    · cases hst : st.inited with
      | true => exact ⟨st, rfl⟩
      | false =>
          cases hk : c.gemini_key with
          | none => exact absurd hk h
          | some k =>
              refine ⟨{ st with inited := true }, ?_⟩
              simp [orchInit, hk]
  obtain ⟨st1, hinit⟩ := hinit
  exact process_input_returns c st input hint ts st1 hinit

/-- Claim C6 witness: a ready orchestrator always yields an envelope. -/
theorem envelope_total_after_init_witness :
    (stReady.inited = true ∨ cDemo.gemini_key ≠ none)
      ∧ ∃ env st2, process_input cDemo stReady "hello" "text" "t0"
          = Except.ok (env, st2) :=
  ⟨Or.inl rfl,
    envelope_total_after_init cDemo stReady "hello" "text" "t0" (Or.inl rfl)⟩

/-! ## Claim C8 -/

/-- Claim C8: when every stage succeeds the envelope carries the id of the
created task (or -1 when the creation collaborator returned no task),
title / priority / labels read from the ENRICHED task, and the RESOLVED
channel as source. -/
theorem success_envelope_fields (c : Collab) (st : OrchState)
    (input hint ts norm det : String) (task enriched : RawTask)
    (created : Option (Option Int))
    (hin : st.inited = true)
    (hd : detect_and_process c input hint = Except.ok (norm, det))
    (he : extract_task_structure c norm = Except.ok task)
    (hen : enrich_task c (st.memory.add_interaction hint norm det ts) task
        = Except.ok enriched)
    (hc : create_task c enriched det = Except.ok created) :
    process_input c st input hint ts
        = Except.ok
            ( Envelope.success (taskIdOf created) enriched.title det enriched.priority
                (enriched.labels.getD []),
              { st with memory := st.memory.add_interaction hint norm det ts } )
      ∧ (created = none → taskIdOf created = some (-1)) := by
  constructor
  · simp only [process_input, init_skip c st hin, hd, he, hen, hc]
  · intro hnone
    rw [hnone]
    rfl

/-- Claim C8 witness: the scenario-A shaped run through `cDemo`. -/
theorem success_envelope_fields_witness :
    (stReady.inited = true)
    ∧ (detect_and_process cDemo "Ship the report" "text"
        = Except.ok ("Ship the report", "text"))
    ∧ (extract_task_structure cDemo "Ship the report" = Except.ok taskA)
    ∧ (enrich_task cDemo (stReady.memory.add_interaction "text" "Ship the report" "text" "t0") taskA
        = Except.ok taskA)
    ∧ (create_task cDemo taskA "text" = Except.ok (some (some 42)))
    ∧ (process_input cDemo stReady "Ship the report" "text" "t0"
          = Except.ok
              ( Envelope.success (taskIdOf (some (some 42))) taskA.title "text" taskA.priority
                  (taskA.labels.getD []),
                { stReady with
                    memory := stReady.memory.add_interaction "text" "Ship the report" "text" "t0" } )
        ∧ (some (some 42) = (none : Option (Option Int))
            → taskIdOf (some (some 42)) = some (-1))) :=
  ⟨rfl, by decide, by decide, by decide, by decide,
    success_envelope_fields cDemo stReady "Ship the report" "text" "t0" "Ship the report"
      "text" taskA taskA (some (some 42)) rfl (by decide) (by decide) (by decide) (by decide)⟩

/-! ## Claim C9 -/

/-- Claim C9: whenever classification + normalization completes, exactly
one interaction is recorded, with the ORIGINAL hint as `type` and the
RESOLVED channel as `channel` (they may differ); the record is appended at
the tail (trimmed only at capacity) and is present whenever the capacity
is at least one — and this holds regardless of how the later stages fare. -/
theorem interaction_record_fields (c : Collab) (st : OrchState)
    (input hint ts norm det : String)
    (hin : st.inited = true)
    (hd : detect_and_process c input hint = Except.ok (norm, det)) :
    ∃ env st2, process_input c st input hint ts = Except.ok (env, st2)
      ∧ st2.memory = st.memory.add_interaction hint norm det ts
      ∧ (st.memory.interactions.length < st.memory.max_items →
          st2.memory.interactions
            = st.memory.interactions
                ++ [{ type := hint, content := norm, timestamp := ts, channel := det }])
      ∧ (1 ≤ st.memory.max_items →
          ({ type := hint, content := norm, timestamp := ts, channel := det } : Interaction)
            ∈ st2.memory.interactions) := by
  simp only [process_input, init_skip c st hin, hd]
  split
  · exact ⟨_, _, rfl, rfl, fun h => add_interaction_no_trim st.memory hint norm det ts h,
      add_interaction_mem st.memory hint norm det ts⟩
  · split
    · exact ⟨_, _, rfl, rfl, fun h => add_interaction_no_trim st.memory hint norm det ts h,
        add_interaction_mem st.memory hint norm det ts⟩
    · split
      · exact ⟨_, _, rfl, rfl, fun h => add_interaction_no_trim st.memory hint norm det ts h,
          add_interaction_mem st.memory hint norm det ts⟩
      · exact ⟨_, _, rfl, rfl, fun h => add_interaction_no_trim st.memory hint norm det ts h,
          add_interaction_mem st.memory hint norm det ts⟩

/-- Claim C9 witness: the scenario-B shaped run — email-formatted input
with hint "text" records type "text" and channel "email". -/
theorem interaction_record_fields_witness :
    (stReady.inited = true)
    ∧ (detect_and_process cDemo "From: a@b.com\nSubject: X\n\nbody text" "text"
        = Except.ok ("X. body text", "email"))
    ∧ ∃ env st2,
        process_input cDemo stReady "From: a@b.com\nSubject: X\n\nbody text" "text" "t0"
            = Except.ok (env, st2)
          ∧ st2.memory
              = stReady.memory.add_interaction "text" "X. body text" "email" "t0"
          ∧ (stReady.memory.interactions.length < stReady.memory.max_items →
              st2.memory.interactions
                = stReady.memory.interactions
                    ++ [{ type := "text", content := "X. body text", timestamp := "t0",
                          channel := "email" }])
          ∧ (1 ≤ stReady.memory.max_items →
              ({ type := "text", content := "X. body text", timestamp := "t0",
                 channel := "email" } : Interaction)
                ∈ st2.memory.interactions) :=
  ⟨rfl, by decide,
    interaction_record_fields cDemo stReady "From: a@b.com\nSubject: X\n\nbody text"
      "text" "t0" "X. body text" "email" rfl (by decide)⟩

/-! ## Claim C7 -/

theorem mem_labels_foldl (ts : List TaskMemory) :
    ∀ (init : List String) (l : String),
      l ∈ ts.foldl (fun acc t => acc ++ t.labels) init
        ↔ l ∈ init ∨ ∃ t ∈ ts, l ∈ t.labels := by
  induction ts with
  | nil => intro init l; simp
  | cons t rest ih =>
      intro init l
      simp only [List.foldl_cons]
      rw [ih (init ++ t.labels) l]
      simp only [List.mem_append, List.mem_cons]
      constructor
      · rintro ((h | h) | ⟨t2, ht2, hl⟩)
        · exact Or.inl h
        · exact Or.inr ⟨t, Or.inl rfl, h⟩
        · exact Or.inr ⟨t2, Or.inr ht2, hl⟩
      · rintro (h | ⟨t2, (rfl | ht2), hl⟩)
        · exact Or.inl (Or.inl h)
        · exact Or.inl (Or.inr hl)
        · exact Or.inr ⟨t2, ht2, hl⟩

theorem collectLabels_mem (ts : List TaskMemory) (l : String) :
    l ∈ collectLabels ts ↔ ∃ t ∈ ts, l ∈ t.labels := by
  rw [collectLabels, List.mem_dedup, mem_labels_foldl ts [] l]
  simp

theorem bumpSource_inv (processed : List String) (acc : List (String × Nat)) (s : String)
    (h : SourcesInv processed acc) : SourcesInv (processed ++ [s]) (bumpSource acc s) := by
  obtain ⟨hnd, hcnt, hkey⟩ := h
  by_cases hs : (acc.map Prod.fst).contains s
  · have hsmem : s ∈ acc.map Prod.fst := by simpa using hs
    have hsproc : s ∈ processed := (hkey s).mpr hsmem
    simp only [bumpSource, if_pos hs]
    have hkeys : (acc.map (fun p => if p.1 = s then (p.1, p.2 + 1) else p)).map Prod.fst
        = acc.map Prod.fst := by
      rw [List.map_map]
      refine List.map_congr_left ?_
      intro p _
      by_cases hp : p.1 = s <;> simp [Function.comp, hp]
    refine ⟨by rw [hkeys]; exact hnd, ?_, ?_⟩
    · intro q hq
      obtain ⟨p, hp, hpq⟩ := List.mem_map.mp hq
      by_cases hps : p.1 = s
      · rw [if_pos hps] at hpq
        rw [← hpq]
        simp only [List.count_append, hps]
        rw [hcnt p hp, hps]
        simp [List.count_singleton]
      · rw [if_neg hps] at hpq
        rw [← hpq]
        simp only [List.count_append]
        rw [hcnt p hp]
        have : List.count p.1 [s] = 0 := List.count_eq_zero.mpr (by simpa using hps)
        omega
    · intro s2
      rw [hkeys]
      simp only [List.mem_append, List.mem_singleton]
      constructor
      · rintro (h2 | rfl)
        · exact (hkey s2).mp h2
        · exact hsmem
      · intro h2
        exact Or.inl ((hkey s2).mpr h2)
  · have hsnot : s ∉ acc.map Prod.fst := by simpa using hs
    have hsproc : s ∉ processed := fun h2 => hsnot ((hkey s).mp h2)
    simp only [bumpSource, if_neg hs]
    refine ⟨?_, ?_, ?_⟩
    · rw [List.map_append]
      simp only [List.map_cons, List.map_nil]
      rw [List.nodup_append]
      exact ⟨hnd, List.nodup_singleton s, by simpa using hsnot⟩
    · intro q hq
      rcases List.mem_append.mp hq with h2 | h2
      · have hq1 : q.1 ≠ s := by
          intro he
          exact hsnot (he ▸ List.mem_map_of_mem Prod.fst h2)
        simp only [List.count_append]
        rw [hcnt q h2]
        have : List.count q.1 [s] = 0 := List.count_eq_zero.mpr (by simpa using hq1)
        omega
      · have : q = (s, 1) := by simpa using h2
        subst this
        simp only [List.count_append]
        have h0 : List.count s processed = 0 := List.count_eq_zero.mpr hsproc
        simp [h0, List.count_singleton]
    · intro s2
      rw [List.map_append]
      simp only [List.map_cons, List.map_nil, List.mem_append, List.mem_singleton,
        List.mem_cons, List.not_mem_nil, or_false]
      constructor
      · rintro (h2 | rfl)
        · exact Or.inl ((hkey s2).mp h2)
        · exact Or.inr rfl
      · rintro (h2 | rfl)
        · exact Or.inl ((hkey s2).mpr h2)
        · exact Or.inr rfl

theorem sourceCounts_inv (ts : List TaskMemory) :
    SourcesInv (ts.map (fun t => t.source)) (sourceCounts ts) := by
  suffices h : ∀ (l : List TaskMemory) (processed : List String) (acc : List (String × Nat)),
      SourcesInv processed acc →
      SourcesInv (processed ++ l.map (fun t => t.source))
        (l.foldl (fun acc t => bumpSource acc t.source) acc) by
    have h2 := h ts [] [] ⟨by simp, by simp, by simp⟩
    simpa [sourceCounts] using h2
  intro l
  induction l with
  | nil => intro processed acc h; simpa using h
  | cons t rest ih =>
      intro processed acc h
      simp only [List.foldl_cons, List.map_cons]
      have h2 := bumpSource_inv processed acc t.source h
      have h3 := ih (processed ++ [t.source]) (bumpSource acc t.source) h2
      simpa [List.append_assoc] using h3

theorem foldl_max_spec (rest : List (String × Nat)) :
    ∀ p : String × Nat,
      (rest.foldl (fun best q => if q.2 > best.2 then q else best) p) ∈ p :: rest
        ∧ p.2 ≤ (rest.foldl (fun best q => if q.2 > best.2 then q else best) p).2
        ∧ ∀ q ∈ rest, q.2 ≤ (rest.foldl (fun best q => if q.2 > best.2 then q else best) p).2 := by
  induction rest with
  | nil => intro p; simp
  | cons q rs ih =>
      intro p
      simp only [List.foldl_cons]
      obtain ⟨hmem, hstart, hall⟩ := ih (if q.2 > p.2 then q else p)
      have hstep : p.2 ≤ (if q.2 > p.2 then q else p).2 ∧ q.2 ≤ (if q.2 > p.2 then q else p).2 := by
        by_cases hq : q.2 > p.2 <;> simp [hq] <;> omega
      refine ⟨?_, le_trans hstep.1 hstart, ?_⟩
      · rcases List.mem_cons.mp hmem with h2 | h2
        · rw [h2]
          by_cases hq : q.2 > p.2
          · rw [if_pos hq]
            exact List.mem_cons_of_mem _ (List.mem_cons_self _ _)
          · rw [if_neg hq]
            exact List.mem_cons_self _ _
        · exact List.mem_cons_of_mem _ (List.mem_cons_of_mem _ h2)
      · intro x hx
        rcases List.mem_cons.mp hx with h2 | h2
        · rw [h2]
          exact le_trans hstep.2 hstart
        · exact hall x h2

/-- Claim C7: `get_user_patterns` returns the empty structure on an empty
store (never an error), and on a non-empty store returns the exact mean of
the stored priorities, the union of all labels seen, a modal source value,
and the count of stored tasks. -/
theorem user_patterns_spec (m : SessionMemory) :
    (m.created_tasks = [] → m.get_user_patterns = none)
    ∧ (m.created_tasks ≠ [] →
        ∃ p, m.get_user_patterns = some p
          ∧ p.average_priority
              = ((m.created_tasks.map (fun t => t.priority)).sum : ℚ)
                  / (m.created_tasks.length : ℚ)
          ∧ p.total_tasks = m.created_tasks.length
          ∧ (∀ l, l ∈ p.common_labels ↔ ∃ t ∈ m.created_tasks, l ∈ t.labels)
          ∧ ∃ s, p.preferred_source = some s
              ∧ s ∈ m.created_tasks.map (fun t => t.source)
              ∧ ∀ s2, (m.created_tasks.map (fun t => t.source)).count s2
                  ≤ (m.created_tasks.map (fun t => t.source)).count s) := by
  constructor
  · intro h
    simp [SessionMemory.get_user_patterns, h]
  · intro h
    have hg : m.get_user_patterns
        = some
            { average_priority :=
                ((m.created_tasks.map (fun t => t.priority)).sum : ℚ)
                  / (m.created_tasks.length : ℚ),
              common_labels := collectLabels m.created_tasks,
              preferred_source := pyMaxByCount (sourceCounts m.created_tasks),
              total_tasks := m.created_tasks.length } := by
      simp only [SessionMemory.get_user_patterns, if_neg h]
    refine ⟨_, hg, rfl, rfl, fun l => collectLabels_mem _ l, ?_⟩
    obtain ⟨hnd, hcnt, hkey⟩ := sourceCounts_inv m.created_tasks
    obtain ⟨t0, ts2, hts⟩ : ∃ t0 ts2, m.created_tasks = t0 :: ts2 := by
      cases hx : m.created_tasks with
      | nil => exact absurd hx h
      | cons a l => exact ⟨a, l, rfl⟩
    have hne : sourceCounts m.created_tasks ≠ [] := by
      intro hemp
      have hmem : t0.source ∈ m.created_tasks.map (fun t => t.source) := by
        rw [hts]; simp
      have := (hkey t0.source).mp hmem
      rw [hemp] at this
      simp at this
    obtain ⟨pq, rest, hsc⟩ : ∃ pq rest, sourceCounts m.created_tasks = pq :: rest := by
      cases hx : sourceCounts m.created_tasks with
      | nil => exact absurd hx hne
      | cons a l => exact ⟨a, l, rfl⟩
    obtain ⟨hbmem, hbp, hball⟩ := foldl_max_spec rest pq
    have hb : (rest.foldl (fun best q => if q.2 > best.2 then q else best) pq)
        ∈ sourceCounts m.created_tasks := by
      rw [hsc]; exact hbmem
    refine ⟨(rest.foldl (fun best q => if q.2 > best.2 then q else best) pq).1, ?_, ?_, ?_⟩
    · simp [pyMaxByCount, hsc]
    · exact (hkey _).mpr (List.mem_map_of_mem Prod.fst hb)
    · intro s2
      by_cases hs2 : s2 ∈ m.created_tasks.map (fun t => t.source)
      · obtain ⟨q, hqmem, hq1⟩ := List.mem_map.mp ((hkey s2).mp hs2)
        have hqle : q.2 ≤ (rest.foldl (fun best q => if q.2 > best.2 then q else best) pq).2 := by
          rw [hsc] at hqmem
          rcases List.mem_cons.mp hqmem with h2 | h2
          · rw [h2]; exact hbp
          · exact hball q h2
        calc (m.created_tasks.map (fun t => t.source)).count s2
            = q.2 := by rw [hcnt q hqmem, hq1]
          _ ≤ (rest.foldl (fun best q => if q.2 > best.2 then q else best) pq).2 := hqle
          _ = (m.created_tasks.map (fun t => t.source)).count
                (rest.foldl (fun best q => if q.2 > best.2 then q else best) pq).1 :=
              hcnt _ hb
      · rw [List.count_eq_zero.mpr hs2]
        exact Nat.zero_le _

/-- Claim C7 witness: the empty store yields the empty structure, and the
three-task store with priorities 1, 2, 3 satisfies the full pattern
specification (in particular the mean is (1+2+3)/3 = 2.0). -/
theorem user_patterns_spec_witness :
    (memE.created_tasks = [] ∧ memE.get_user_patterns = none)
    ∧ (memP.created_tasks ≠ []
        ∧ ∃ p, memP.get_user_patterns = some p
            ∧ p.average_priority
                = ((memP.created_tasks.map (fun t => t.priority)).sum : ℚ)
                    / (memP.created_tasks.length : ℚ)
            ∧ p.total_tasks = memP.created_tasks.length
            ∧ (∀ l, l ∈ p.common_labels ↔ ∃ t ∈ memP.created_tasks, l ∈ t.labels)
            ∧ ∃ s, p.preferred_source = some s
                ∧ s ∈ memP.created_tasks.map (fun t => t.source)
                ∧ ∀ s2, (memP.created_tasks.map (fun t => t.source)).count s2
                    ≤ (memP.created_tasks.map (fun t => t.source)).count s) :=
  ⟨⟨rfl, (user_patterns_spec memE).1 rfl⟩,
    ⟨by decide, (user_patterns_spec memP).2 (by decide)⟩⟩
